import Mathlib

/-!
Shallow embedding of the typing-session measurement engine of
`src/components/TypingTest.tsx` (the `TypingTest` React component).

Strings are modelled as `List Char`; the mutable React state hooks are
collected into one record `SessionState`, and each event handler of the
component becomes a pure state transformer.  Guards inside a handler read
the render snapshot (the pre-event state), and `setX` calls become field
updates of the successor state, which matches React's batched functional
updates.  Timestamps are rationals (seconds); `Date` subtraction divided by
1000 becomes plain subtraction of rationals.
-/

set_option autoImplicit false

/-- Character strings of the engine, modelled as lists of characters. -/
abbrev Str := List Char

/-- The space character (code point 32), the word delimiter. -/
def spaceChar : Char := Char.ofNat 32

/-- JavaScript's `'...'.split(' ')`: split on every single space; the empty
string yields `['']`, and the result is never empty. -/
def splitOnSpace : Str → List Str
  | [] => [[]]
  | c :: cs =>
    if c = spaceChar then [] :: splitOnSpace cs
    else
      match splitOnSpace cs with
      | [] => [[c]]
      | w :: ws => (c :: w) :: ws

/-- JavaScript's `words.join(' ')`. -/
def joinSpace : List Str → Str
  | [] => []
  | [w] => w
  | w :: ws => w ++ spaceChar :: joinSpace ws

/-- JavaScript's `u.lastIndexOf(' ') + 1` (so `0` when there is no space):
the start position of the in-progress word inside the whole input value. -/
def lastSpacePlusOne : Str → ℕ
  | [] => 0
  | c :: cs =>
    let r := lastSpacePlusOne cs
    if r = 0 then (if c = spaceChar then 1 else 0) else r + 1

/-- The in-progress word of an input value:
`lastSpaceIndex >= 0 ? value.substring(lastSpaceIndex + 1) : value`. -/
def currentWordOf (value : Str) : Str := value.drop (lastSpacePlusOne value)

/-- The count of positionally matching characters of two strings up to the
shorter length (the character loop of `handleInputChange`). -/
def posMatchCount : Str → Str → ℕ
  | a :: as, b :: bs => (if a = b then 1 else 0) + posMatchCount as bs
  | _, _ => 0

/-- The committed-words part of the `correctKeystrokes` recomputation in
`handleInputChange`: `len(word)+1` for every committed word equal to its
reference word (`words[i] || ''` out of range). -/
def committedCorrectCount (typed words : List Str) : ℕ :=
  ∑ i ∈ Finset.range typed.length,
    (if typed.getD i [] = words.getD i [] then (typed.getD i []).length + 1 else 0)

/-- The committed-words part of the `wrongWords` recomputation in
`handleInputChange`: all committed indices whose word differs from its
reference word (`words[i] || ''` out of range). -/
def committedWrongSet (typed words : List Str) : Finset ℕ :=
  (Finset.range typed.length).filter (fun i => typed.getD i [] ≠ words.getD i [])

/-- The `correctWords` filter of `handleTestComplete`:
`finalTypedWords.filter((word, index) => word === words[index]).length`
(strict equality, so an index beyond the reference words never matches). -/
def correctWordsCount (typed words : List Str) : ℕ :=
  ((Finset.range typed.length).filter
    (fun i => words.get? i = some (typed.getD i []))).card

/-- `Math.round`: rounds half toward positive infinity. -/
def jsRound (q : ℚ) : ℤ := ⌊q + 1 / 2⌋

/-- `Math.round(q * 100) / 100`: rounding to two decimal places. -/
def round2 (q : ℚ) : ℚ := (jsRound (q * 100) : ℚ) / 100

/-- The three backspace (correction) modes of the settings. -/
inductive BackspaceMode
  | full
  | word
  | disabled
deriving DecidableEq

/-- The key of a keydown event, as far as `handleKeyDown` distinguishes it. -/
inductive Key
  | space
  | tab
  | f5
  | backspace
  | char (c : Char)
deriving DecidableEq

/-- The letters whose Ctrl/Meta combinations `handleKeyDown` blocks. -/
def blockedKeys : List Char := ['c', 'v', 'x', 'a', 'u', 'r', 'f', 's', 'p', 'z', 'y']

/-- Whether a keydown is one of the blocked Ctrl/Meta combinations. -/
def isBlockedCombo (ctrl : Bool) (k : Key) : Bool :=
  ctrl && (match k with
    | Key.char c => blockedKeys.contains c
    | _ => false)

/-- The `results` record built by `handleTestComplete`. -/
structure TestResults where
  wpm : ℤ
  grossWpm : ℤ
  accuracy : ℚ
  totalWords : ℕ
  typedWords : ℕ
  correctWords : ℕ
  incorrectWords : ℕ
  totalKeystrokes : ℕ
  typedKeystrokes : ℕ
  correctKeystrokes : ℕ
  keystrokeAccuracy : ℚ
  errors : ℕ
  timeTaken : ℤ
  totalTime : ℕ
  originalText : Str
  typedText : Str
  typedWordsArray : List Str
  wrongWordIndices : Finset ℕ
deriving DecidableEq

/-- The React state of the `TypingTest` component that the engine reads and
writes, plus the per-session configuration (`words` from the selected test's
content, its `time_limit`, and the backspace mode), plus the frozen results
once completion has run. -/
structure SessionState where
  isActive : Bool
  isFinished : Bool
  timeLeft : ℕ
  userInput : Str
  currentWordIndex : ℕ
  wrongWords : Finset ℕ
  startTime : Option ℚ
  totalKeystrokes : ℕ
  typedKeystrokes : ℕ
  correctKeystrokes : ℕ
  words : List Str
  typedWordsArray : List Str
  currentTypingWord : Str
  timeLimit : ℕ
  backspaceMode : BackspaceMode
  results : Option TestResults
deriving DecidableEq

/-- The scoring denominator of `handleTestComplete`:
`startTime ? (endTime - startTime) / 1000 : selectedTest?.time_limit || 60`
(in seconds; note `|| 60` also replaces a zero time limit, and there is no
clamping of the difference). -/
def elapsedOf (s : SessionState) (now : ℚ) : ℚ :=
  match s.startTime with
  | some t => now - t
  | none => if s.timeLimit = 0 then 60 else (s.timeLimit : ℚ)

/-- The `finalTypedWords` of `handleTestComplete`: the committed words, plus
the in-progress word as an implicit final commit when it is non-empty and no
word was committed at the current index yet. -/
def finalTypedWords (s : SessionState) : List Str :=
  if s.currentTypingWord ≠ [] ∧ s.typedWordsArray.length ≤ s.currentWordIndex
  then s.typedWordsArray ++ [s.currentTypingWord]
  else s.typedWordsArray

/-- The unrounded keystroke accuracy of `handleTestComplete`:
`typedKeystrokes > 0 ? (correctKeystrokes / typedKeystrokes) * 100 : 0`. -/
def rawKeystrokeAccuracy (s : SessionState) : ℚ :=
  if 0 < s.typedKeystrokes
  then (s.correctKeystrokes : ℚ) / (s.typedKeystrokes : ℚ) * 100
  else 0

/-- The `results` record computed by `handleTestComplete` from the state `s`
it reads, with `now` as the completion instant. -/
def computeResults (s : SessionState) (now : ℚ) : TestResults :=
  let timeTaken := elapsedOf s now
  let ftw := finalTypedWords s
  let correctWords := correctWordsCount ftw s.words
  let accuracy : ℚ :=
    if 0 < ftw.length then (correctWords : ℚ) / (ftw.length : ℚ) * 100 else 0
  { wpm := jsRound ((correctWords : ℚ) / (timeTaken / 60))
    grossWpm := jsRound ((ftw.length : ℚ) / (timeTaken / 60))
    accuracy := round2 accuracy
    totalWords := s.words.length
    typedWords := ftw.length
    correctWords := correctWords
    incorrectWords := ftw.length - correctWords
    totalKeystrokes := s.totalKeystrokes
    typedKeystrokes := s.typedKeystrokes
    correctKeystrokes := s.correctKeystrokes
    keystrokeAccuracy := round2 (rawKeystrokeAccuracy s)
    errors := s.wrongWords.card
    timeTaken := jsRound timeTaken
    totalTime := if s.timeLimit = 0 then 60 else s.timeLimit
    originalText := joinSpace s.words
    typedText := s.userInput
    typedWordsArray := ftw
    wrongWordIndices := s.wrongWords }

/-- The leaderboard gate of `handleTestComplete`:
`keystrokeAccuracy >= 85 && (timeTaken >= 600 || finalTypedWords.length >= 400)`,
computed from the unrounded keystroke accuracy and the unrounded elapsed
seconds. -/
def qualifiesForLeaderboard (s : SessionState) (now : ℚ) : Bool :=
  decide (85 ≤ rawKeystrokeAccuracy s) &&
    (decide (600 ≤ elapsedOf s now) || decide (400 ≤ (finalTypedWords s).length))

/-- Completion as triggered from inside another handler: the guard and the
results are evaluated on the render snapshot `snap` (stale closure), while
the field updates already queued by the calling handler survive in `s`. -/
def completeWithin (snap s : SessionState) (now : ℚ) : SessionState :=
  if snap.isFinished then s
  else { s with isActive := false, isFinished := true,
                results := some (computeResults snap now) }

/-- `handleTestComplete` invoked on a current state (timer, submit button):
idempotent via the `if (isFinished) return` guard. -/
def handleTestComplete (now : ℚ) (s : SessionState) : SessionState :=
  completeWithin s s now

/-- `startTimer`: activate and set the start timestamp once. -/
def startTimer (now : ℚ) (s : SessionState) : SessionState :=
  if ¬s.isActive ∧ ¬s.isFinished ∧ s.startTime = none
  then { s with isActive := true, startTime := some now }
  else s

/-- The guarded `startTimer()` call at the top of `handleKeyDown`
(`!isActive && !isFinished && e.key !== 'Tab'` and no Ctrl/Meta). -/
def kdStart (ctrl : Bool) (k : Key) (now : ℚ) (s : SessionState) : SessionState :=
  if ¬s.isActive ∧ ¬s.isFinished ∧ k ≠ Key.tab ∧ ¬ctrl
  then startTimer now s else s

/-- The `if (isActive) setTypedKeystrokes(prev => prev + 1)` step of
`handleKeyDown`; the guard reads the snapshot `snap`. -/
def kdCount (snap s1 : SessionState) : SessionState :=
  if snap.isActive then { s1 with typedKeystrokes := s1.typedKeystrokes + 1 } else s1

/-- The space branch of `handleKeyDown`: commit the in-progress word (append
it to `typedWordsArray`), credit `len+1` correct keystrokes on an exact
match with the current reference word or add the current index to
`wrongWords` on a mismatch, and advance (clearing the buffer and appending a
space to the input value) unless already at the last word index.  All values
read the snapshot `snap`. -/
def kdSpace (snap s2 : SessionState) : SessionState :=
  let typedWord := snap.currentTypingWord
  let s3 := { s2 with typedWordsArray := s2.typedWordsArray ++ [typedWord] }
  let s4 :=
    if snap.words.get? snap.currentWordIndex = some typedWord
    then { s3 with correctKeystrokes := s3.correctKeystrokes + typedWord.length + 1 }
    else { s3 with wrongWords := insert snap.currentWordIndex s3.wrongWords }
  if snap.currentWordIndex < snap.words.length - 1 then
    { s4 with currentWordIndex := snap.currentWordIndex + 1,
              currentTypingWord := [],
              userInput := s4.userInput ++ [spaceChar] }
  else s4

/-- `handleKeyDown`: start the timer on a first non-Tab, non-modifier key;
drop blocked Ctrl/Meta combinations and F5 (before the keystroke counter);
count every other keydown while active into `typedKeystrokes`; and process
space through `kdSpace`.  All guards read the pre-event snapshot `s`. -/
def handleKeyDown (ctrl : Bool) (k : Key) (now : ℚ) (s : SessionState) : SessionState :=
  if (s.isActive ∨ s.isFinished) ∧ isBlockedCombo ctrl k = true then kdStart ctrl k now s
  else if (s.isActive ∨ s.isFinished) ∧ k = Key.f5 then kdStart ctrl k now s
  else if k = Key.space then kdSpace s (kdCount s (kdStart ctrl k now s))
  else kdCount s (kdStart ctrl k now s)

/-- The accepted-value part of `handleInputChange`: store the value and its
in-progress word, recompute `correctKeystrokes` from scratch (committed
words plus positional matches of the in-progress word), and rebuild
`wrongWords` (mismatching committed indices, plus the current index when the
in-progress word is a non-empty mismatch of the reference word's first
characters). -/
def applyInput (value : Str) (s : SessionState) : SessionState :=
  { s with
    userInput := value
    currentTypingWord := currentWordOf value
    correctKeystrokes :=
      committedCorrectCount s.typedWordsArray s.words +
        posMatchCount (currentWordOf value) (s.words.getD s.currentWordIndex [])
    wrongWords :=
      if (currentWordOf value).length ≠ 0 ∧
          currentWordOf value ≠ (s.words.getD s.currentWordIndex []).take (currentWordOf value).length
      then insert s.currentWordIndex (committedWrongSet s.typedWordsArray s.words)
      else committedWrongSet s.typedWordsArray s.words }

/-- `handleInputChange`: reject a value that introduces a space before any
word was delimited; reject a shortened value according to the backspace
mode (always in `disabled` mode, in `word` mode when it reaches back past
the start of the current word); otherwise accept the value through
`applyInput`, triggering completion first when the last reference word is
matched exactly.  The completion call reads the render snapshot `s` (stale
closure). -/
def handleInputChange (value : Str) (now : ℚ) (s : SessionState) : SessionState :=
  if spaceChar ∈ value ∧ spaceChar ∉ s.userInput then s
  else if value.length < s.userInput.length ∧
      (s.backspaceMode = BackspaceMode.disabled ∨
        (s.backspaceMode = BackspaceMode.word ∧
          value.length < lastSpacePlusOne s.userInput)) then s
  else if s.words.length - 1 ≤ s.currentWordIndex ∧
      currentWordOf value = s.words.getD s.currentWordIndex [] then
    completeWithin s (applyInput value s) now
  else applyInput value s

/-- One firing of the 1-second timer effect: while active with time left,
decrement `timeLeft`; when the remaining time reaches zero, run
`handleTestComplete`. -/
def tickEvent (now : ℚ) (s : SessionState) : SessionState :=
  if s.isActive ∧ 0 < s.timeLeft then
    let s' := { s with timeLeft := s.timeLeft - 1 }
    if s'.timeLeft = 0 then handleTestComplete now s' else s'
  else if s.timeLeft = 0 then handleTestComplete now s
  else s

/-- The events a session can receive after the test was selected. -/
inductive Event
  | keyDown (ctrl : Bool) (k : Key) (now : ℚ)
  | inputChange (value : Str) (now : ℚ)
  | tick (now : ℚ)
  | submit (now : ℚ)

/-- Event dispatch.  The textarea carries `disabled={isFinished}`, so the
browser delivers no keydown or change event to it once the session is
finished; `tick` and `submit` reach `handleTestComplete`, which has its own
`if (isFinished) return` guard. -/
def dispatch (e : Event) (s : SessionState) : SessionState :=
  match e with
  | Event.keyDown ctrl k now => if s.isFinished then s else handleKeyDown ctrl k now s
  | Event.inputChange value now => if s.isFinished then s else handleInputChange value now s
  | Event.tick now => tickEvent now s
  | Event.submit now => handleTestComplete now s

/-- Run a sequence of events in arrival order. -/
def run (s : SessionState) (es : List Event) : SessionState :=
  es.foldl (fun t e => dispatch e t) s

/-- The state right after a test is selected: the `useEffect` on
`selectedTest` sets `words = content.split(' ')`, `timeLeft = time_limit`,
`totalKeystrokes = content.length`, and `resetTest` clears everything else. -/
def initState (content : Str) (timeLimit : ℕ) (mode : BackspaceMode) : SessionState :=
  { isActive := false
    isFinished := false
    timeLeft := timeLimit
    userInput := []
    currentWordIndex := 0
    wrongWords := ∅
    startTime := none
    totalKeystrokes := content.length
    typedKeystrokes := 0
    correctKeystrokes := 0
    words := splitOnSpace content
    typedWordsArray := []
    currentTypingWord := []
    timeLimit := timeLimit
    backspaceMode := mode
    results := none }

/-! ### Basic lemmas about the string helpers -/

theorem splitOnSpace_ne_nil (l : Str) : splitOnSpace l ≠ [] := by
  cases l with
  | nil => simp [splitOnSpace]
  | cons c cs =>
    simp only [splitOnSpace]
    split
    · simp
    · split <;> simp

theorem splitOnSpace_length_pos (l : Str) : 0 < (splitOnSpace l).length :=
  List.length_pos.mpr (splitOnSpace_ne_nil l)

theorem joinSpace_splitOnSpace (l : Str) : joinSpace (splitOnSpace l) = l := by
  induction l with
  | nil => rfl
  | cons c cs ih =>
    obtain ⟨w, ws, hw⟩ := List.exists_cons_of_ne_nil (splitOnSpace_ne_nil cs)
    by_cases hc : c = spaceChar
    · subst hc
      have h1 : splitOnSpace (spaceChar :: cs) = [] :: splitOnSpace cs := by
        simp [splitOnSpace]
      rw [h1, hw]
      rw [hw] at ih
      show spaceChar :: joinSpace (w :: ws) = spaceChar :: cs
      rw [ih]
    · have h1 : splitOnSpace (c :: cs) = (c :: w) :: ws := by
        simp only [splitOnSpace, if_neg hc, hw]
      rw [h1]
      rw [hw] at ih
      cases ws with
      | nil =>
        show c :: w = c :: cs
        simpa using ih
      | cons x xs =>
        show (c :: w) ++ spaceChar :: joinSpace (x :: xs) = c :: cs
        have : w ++ spaceChar :: joinSpace (x :: xs) = cs := ih
        simpa using this

theorem posMatchCount_eq_filter_length (a b : Str) :
    posMatchCount a b =
      ((List.range (min a.length b.length)).filter
        (fun j => decide (a.get? j = b.get? j))).length := by
  induction a generalizing b with
  | nil => simp [posMatchCount]
  | cons x xs ih =>
    cases b with
    | nil => simp [posMatchCount]
    | cons y ys =>
      have hmin : min (x :: xs).length (y :: ys).length = min xs.length ys.length + 1 := by
        simp [Nat.succ_min_succ]
      rw [hmin, List.range_succ_eq_map]
      simp only [List.filter_cons, List.filter_map, List.length_map]
      by_cases hxy : x = y
      · simp only [posMatchCount, if_pos hxy]
        have h0 : ((x :: xs).get? 0 = (y :: ys).get? 0) = True := by simp [hxy]
        simp only [List.get?, hxy]
        rw [ih ys]
        simp [Function.comp_def, Nat.succ_eq_add_one, Nat.add_comm]
      · simp only [posMatchCount, if_neg hxy]
        simp only [List.get?, hxy]
        rw [ih ys]
        simp [Function.comp_def, hxy, Nat.succ_eq_add_one]

/-! ### Which fields each handler can touch -/

theorem completeWithin_fields (snap s : SessionState) (now : ℚ) :
    (completeWithin snap s now).timeLeft = s.timeLeft ∧
    (completeWithin snap s now).userInput = s.userInput ∧
    (completeWithin snap s now).currentWordIndex = s.currentWordIndex ∧
    (completeWithin snap s now).wrongWords = s.wrongWords ∧
    (completeWithin snap s now).startTime = s.startTime ∧
    (completeWithin snap s now).totalKeystrokes = s.totalKeystrokes ∧
    (completeWithin snap s now).typedKeystrokes = s.typedKeystrokes ∧
    (completeWithin snap s now).correctKeystrokes = s.correctKeystrokes ∧
    (completeWithin snap s now).words = s.words ∧
    (completeWithin snap s now).typedWordsArray = s.typedWordsArray ∧
    (completeWithin snap s now).currentTypingWord = s.currentTypingWord ∧
    (completeWithin snap s now).timeLimit = s.timeLimit ∧
    (completeWithin snap s now).backspaceMode = s.backspaceMode := by
  unfold completeWithin
  split_ifs <;> simp

theorem kdStart_parts (ctrl : Bool) (k : Key) (now : ℚ) (s : SessionState) :
    (kdStart ctrl k now s).words = s.words ∧
    (kdStart ctrl k now s).timeLimit = s.timeLimit ∧
    (kdStart ctrl k now s).backspaceMode = s.backspaceMode ∧
    (kdStart ctrl k now s).totalKeystrokes = s.totalKeystrokes ∧
    (kdStart ctrl k now s).isFinished = s.isFinished ∧
    (kdStart ctrl k now s).results = s.results ∧
    (kdStart ctrl k now s).timeLeft = s.timeLeft ∧
    (kdStart ctrl k now s).typedKeystrokes = s.typedKeystrokes ∧
    (kdStart ctrl k now s).typedWordsArray = s.typedWordsArray ∧
    (kdStart ctrl k now s).wrongWords = s.wrongWords ∧
    (kdStart ctrl k now s).currentWordIndex = s.currentWordIndex ∧
    (kdStart ctrl k now s).currentTypingWord = s.currentTypingWord ∧
    (kdStart ctrl k now s).correctKeystrokes = s.correctKeystrokes ∧
    (kdStart ctrl k now s).userInput = s.userInput := by
  unfold kdStart startTimer
  split_ifs <;> simp

theorem kdCount_parts (snap s1 : SessionState) :
    (kdCount snap s1).words = s1.words ∧
    (kdCount snap s1).timeLimit = s1.timeLimit ∧
    (kdCount snap s1).backspaceMode = s1.backspaceMode ∧
    (kdCount snap s1).totalKeystrokes = s1.totalKeystrokes ∧
    (kdCount snap s1).isFinished = s1.isFinished ∧
    (kdCount snap s1).results = s1.results ∧
    (kdCount snap s1).timeLeft = s1.timeLeft ∧
    (kdCount snap s1).typedWordsArray = s1.typedWordsArray ∧
    (kdCount snap s1).wrongWords = s1.wrongWords ∧
    (kdCount snap s1).currentWordIndex = s1.currentWordIndex ∧
    (kdCount snap s1).currentTypingWord = s1.currentTypingWord ∧
    (kdCount snap s1).correctKeystrokes = s1.correctKeystrokes ∧
    (kdCount snap s1).userInput = s1.userInput ∧
    (kdCount snap s1).startTime = s1.startTime ∧
    (kdCount snap s1).isActive = s1.isActive := by
  unfold kdCount
  split_ifs <;> simp

theorem kdSpace_parts (snap s2 : SessionState) :
    (kdSpace snap s2).words = s2.words ∧
    (kdSpace snap s2).timeLimit = s2.timeLimit ∧
    (kdSpace snap s2).backspaceMode = s2.backspaceMode ∧
    (kdSpace snap s2).totalKeystrokes = s2.totalKeystrokes ∧
    (kdSpace snap s2).isFinished = s2.isFinished ∧
    (kdSpace snap s2).results = s2.results ∧
    (kdSpace snap s2).timeLeft = s2.timeLeft ∧
    (kdSpace snap s2).typedKeystrokes = s2.typedKeystrokes ∧
    (kdSpace snap s2).typedWordsArray = s2.typedWordsArray ++ [snap.currentTypingWord] ∧
    s2.wrongWords ⊆ (kdSpace snap s2).wrongWords ∧
    (kdSpace snap s2).startTime = s2.startTime := by
  unfold kdSpace
  dsimp only
  split_ifs <;>
    refine ⟨rfl, rfl, rfl, rfl, rfl, rfl, rfl, rfl, rfl, ?_, rfl⟩ <;>
    first
      | exact Finset.Subset.refl _
      | exact Finset.subset_insert _ _

theorem handleKeyDown_fields (ctrl : Bool) (k : Key) (now : ℚ) (s : SessionState) :
    (handleKeyDown ctrl k now s).words = s.words ∧
    (handleKeyDown ctrl k now s).timeLimit = s.timeLimit ∧
    (handleKeyDown ctrl k now s).backspaceMode = s.backspaceMode ∧
    (handleKeyDown ctrl k now s).totalKeystrokes = s.totalKeystrokes ∧
    (handleKeyDown ctrl k now s).isFinished = s.isFinished ∧
    (handleKeyDown ctrl k now s).results = s.results ∧
    (handleKeyDown ctrl k now s).timeLeft = s.timeLeft := by
  obtain ⟨w1, tl1, bm1, tk1, fin1, res1, left1, -, -, -, -, -, -, -⟩ :=
    kdStart_parts ctrl k now s
  obtain ⟨w2, tl2, bm2, tk2, fin2, res2, left2, -, -, -, -, -, -, -, -⟩ :=
    kdCount_parts s (kdStart ctrl k now s)
  obtain ⟨w3, tl3, bm3, tk3, fin3, res3, left3, -, -, -, -⟩ :=
    kdSpace_parts s (kdCount s (kdStart ctrl k now s))
  unfold handleKeyDown
  split_ifs
  · exact ⟨w1, tl1, bm1, tk1, fin1, res1, left1⟩
  · exact ⟨w1, tl1, bm1, tk1, fin1, res1, left1⟩
  · exact ⟨w3.trans (w2.trans w1), tl3.trans (tl2.trans tl1), bm3.trans (bm2.trans bm1),
      tk3.trans (tk2.trans tk1), fin3.trans (fin2.trans fin1), res3.trans (res2.trans res1),
      left3.trans (left2.trans left1)⟩
  · exact ⟨w2.trans w1, tl2.trans tl1, bm2.trans bm1, tk2.trans tk1, fin2.trans fin1,
      res2.trans res1, left2.trans left1⟩

theorem handleInputChange_fields (value : Str) (now : ℚ) (s : SessionState) :
    (handleInputChange value now s).words = s.words ∧
    (handleInputChange value now s).timeLimit = s.timeLimit ∧
    (handleInputChange value now s).backspaceMode = s.backspaceMode ∧
    (handleInputChange value now s).totalKeystrokes = s.totalKeystrokes ∧
    (handleInputChange value now s).typedKeystrokes = s.typedKeystrokes ∧
    (handleInputChange value now s).typedWordsArray = s.typedWordsArray ∧
    (handleInputChange value now s).currentWordIndex = s.currentWordIndex ∧
    (handleInputChange value now s).startTime = s.startTime ∧
    (handleInputChange value now s).timeLeft = s.timeLeft := by
  unfold handleInputChange applyInput
  split_ifs <;> simp [completeWithin_fields]

theorem handleTestComplete_fields (now : ℚ) (s : SessionState) :
    (handleTestComplete now s).timeLeft = s.timeLeft ∧
    (handleTestComplete now s).userInput = s.userInput ∧
    (handleTestComplete now s).currentWordIndex = s.currentWordIndex ∧
    (handleTestComplete now s).wrongWords = s.wrongWords ∧
    (handleTestComplete now s).startTime = s.startTime ∧
    (handleTestComplete now s).totalKeystrokes = s.totalKeystrokes ∧
    (handleTestComplete now s).typedKeystrokes = s.typedKeystrokes ∧
    (handleTestComplete now s).correctKeystrokes = s.correctKeystrokes ∧
    (handleTestComplete now s).words = s.words ∧
    (handleTestComplete now s).typedWordsArray = s.typedWordsArray ∧
    (handleTestComplete now s).currentTypingWord = s.currentTypingWord ∧
    (handleTestComplete now s).timeLimit = s.timeLimit ∧
    (handleTestComplete now s).backspaceMode = s.backspaceMode :=
  completeWithin_fields s s now

theorem tickEvent_fields (now : ℚ) (s : SessionState) :
    (tickEvent now s).userInput = s.userInput ∧
    (tickEvent now s).currentWordIndex = s.currentWordIndex ∧
    (tickEvent now s).wrongWords = s.wrongWords ∧
    (tickEvent now s).startTime = s.startTime ∧
    (tickEvent now s).totalKeystrokes = s.totalKeystrokes ∧
    (tickEvent now s).typedKeystrokes = s.typedKeystrokes ∧
    (tickEvent now s).correctKeystrokes = s.correctKeystrokes ∧
    (tickEvent now s).words = s.words ∧
    (tickEvent now s).typedWordsArray = s.typedWordsArray ∧
    (tickEvent now s).currentTypingWord = s.currentTypingWord ∧
    (tickEvent now s).timeLimit = s.timeLimit ∧
    (tickEvent now s).backspaceMode = s.backspaceMode := by
  unfold tickEvent
  dsimp only
  split_ifs <;> simp [handleTestComplete_fields]

theorem dispatch_config (e : Event) (s : SessionState) :
    (dispatch e s).words = s.words ∧
    (dispatch e s).timeLimit = s.timeLimit ∧
    (dispatch e s).backspaceMode = s.backspaceMode ∧
    (dispatch e s).totalKeystrokes = s.totalKeystrokes := by
  cases e with
  | keyDown ctrl k now =>
    simp only [dispatch]
    split_ifs
    · exact ⟨rfl, rfl, rfl, rfl⟩
    · have h := handleKeyDown_fields ctrl k now s
      exact ⟨h.1, h.2.1, h.2.2.1, h.2.2.2.1⟩
  | inputChange value now =>
    simp only [dispatch]
    split_ifs
    · exact ⟨rfl, rfl, rfl, rfl⟩
    · have h := handleInputChange_fields value now s
      exact ⟨h.1, h.2.1, h.2.2.1, h.2.2.2.1⟩
  | tick now =>
    have h := tickEvent_fields now s
    exact ⟨h.2.2.2.2.2.2.2.1, h.2.2.2.2.2.2.2.2.2.2.1, h.2.2.2.2.2.2.2.2.2.2.2, h.2.2.2.2.1⟩
  | submit now =>
    have h := handleTestComplete_fields now s
    exact ⟨h.2.2.2.2.2.2.2.2.1, h.2.2.2.2.2.2.2.2.2.2.2.1, h.2.2.2.2.2.2.2.2.2.2.2.2, h.2.2.2.2.2.1⟩

theorem run_config (s : SessionState) (es : List Event) :
    (run s es).words = s.words ∧
    (run s es).timeLimit = s.timeLimit ∧
    (run s es).backspaceMode = s.backspaceMode ∧
    (run s es).totalKeystrokes = s.totalKeystrokes := by
  induction es generalizing s with
  | nil => exact ⟨rfl, rfl, rfl, rfl⟩
  | cons e es ih =>
    have h1 := dispatch_config e s
    have h2 := ih (dispatch e s)
    show (run (dispatch e s) es).words = s.words ∧ _
    exact ⟨h2.1.trans h1.1, h2.2.1.trans h1.2.1, h2.2.2.1.trans h1.2.2.1,
      h2.2.2.2.trans h1.2.2.2⟩

/-! ### C1 — scoring formulas of the results record -/

/-- C1: for a session handed to completion with positive elapsed seconds
`e`, the results satisfy `netWPM = round(correctWordCount / (e / 60))`,
`grossWPM = round(typedWordCount / (e / 60))`, word-level
`accuracyPercent = round(correctWordCount / typedWordCount * 100, 2)` with a
zero guard, keystroke-level
`keystrokeAccuracyPercent = round(correctKeystrokes / typedKeystrokes * 100, 2)`
with a zero guard, where `correctWordCount` counts the committed typed words
(including the implicit final commit) equal to their reference words and
`incorrectWordCount` is the rest.  Both percentages use round-half-up, which
agrees with round-half-away-from-zero on these non-negative values. -/
theorem c1_scoring_formulas (s : SessionState) (now : ℚ)
    (_he : 0 < elapsedOf s now) :
    (computeResults s now).wpm =
      jsRound ((correctWordsCount (finalTypedWords s) s.words : ℚ) / (elapsedOf s now / 60)) ∧
    (computeResults s now).grossWpm =
      jsRound (((finalTypedWords s).length : ℚ) / (elapsedOf s now / 60)) ∧
    (computeResults s now).accuracy =
      (if 0 < (finalTypedWords s).length
       then round2 ((correctWordsCount (finalTypedWords s) s.words : ℚ) /
              ((finalTypedWords s).length : ℚ) * 100)
       else 0) ∧
    (computeResults s now).keystrokeAccuracy =
      (if 0 < s.typedKeystrokes
       then round2 ((s.correctKeystrokes : ℚ) / (s.typedKeystrokes : ℚ) * 100)
       else 0) ∧
    (computeResults s now).correctWords = correctWordsCount (finalTypedWords s) s.words ∧
    (computeResults s now).incorrectWords =
      (finalTypedWords s).length - correctWordsCount (finalTypedWords s) s.words ∧
    (computeResults s now).typedWords = (finalTypedWords s).length := by
  refine ⟨rfl, rfl, ?_, ?_, rfl, rfl, rfl⟩
  · by_cases h : 0 < (finalTypedWords s).length
    · simp [computeResults, h]
    · norm_num [computeResults, h, round2, jsRound]
  · by_cases h : 0 < s.typedKeystrokes
    · simp [computeResults, rawKeystrokeAccuracy, h]
    · norm_num [computeResults, rawKeystrokeAccuracy, h, round2, jsRound]

/-- A small completed session used to instantiate theorems with hypotheses:
reference text "ab cd", both words typed correctly, finished by timeout at
`now = 30` after starting at `5`. -/
def demoState : SessionState :=
  { isActive := true
    isFinished := false
    timeLeft := 0
    userInput := ['a', 'b', ' ', 'c', 'd']
    currentWordIndex := 1
    wrongWords := ∅
    startTime := some 5
    totalKeystrokes := 5
    typedKeystrokes := 6
    correctKeystrokes := 5
    words := [['a', 'b'], ['c', 'd']]
    typedWordsArray := [['a', 'b']]
    currentTypingWord := ['c', 'd']
    timeLimit := 60
    backspaceMode := BackspaceMode.full
    results := none }

/-- Witness for C1 at `demoState`. -/
theorem c1_scoring_formulas_witness :
    (computeResults demoState 30).wpm =
      jsRound ((correctWordsCount (finalTypedWords demoState) demoState.words : ℚ) /
        (elapsedOf demoState 30 / 60)) :=
  (c1_scoring_formulas demoState 30 (by norm_num [elapsedOf, demoState])).1

/-! ### C2 — leaderboard qualification gate -/

/-- A session whose unrounded keystroke accuracy is 84.995 (16999 correct of
20000 typed keystrokes), which rounds to 85.00 at two decimals. -/
def c2State : SessionState :=
  { isActive := true
    isFinished := false
    timeLeft := 200
    userInput := ['a', ' ', 'x', ' ', 'c']
    currentWordIndex := 2
    wrongWords := {1}
    startTime := some 0
    totalKeystrokes := 5
    typedKeystrokes := 20000
    correctKeystrokes := 16999
    words := [['a'], ['b'], ['c']]
    typedWordsArray := [['a'], ['x']]
    currentTypingWord := ['c']
    timeLimit := 900
    backspaceMode := BackspaceMode.full
    results := none }

/-- C2 counterexample: at `c2State` completed at `now = 700`, the reported
`keystrokeAccuracyPercent` is 85 (so the claim's gate
`keystrokeAccuracyPercent >= 85 AND elapsedSeconds >= 600` holds), yet the
code's flag is `false`, because line 505 compares the unrounded accuracy
84.995 against 85. -/
theorem c2_counterexample :
    (computeResults c2State 700).keystrokeAccuracy = 85 ∧
    elapsedOf c2State 700 = 700 ∧
    (computeResults c2State 700).timeTaken = 700 ∧
    qualifiesForLeaderboard c2State 700 = false := by
  have hraw : rawKeystrokeAccuracy c2State = 16999 / 200 := by
    norm_num [rawKeystrokeAccuracy, c2State]
  have hnot : ¬(85 ≤ rawKeystrokeAccuracy c2State) := by rw [hraw]; norm_num
  refine ⟨?_, ?_, ?_, ?_⟩
  · show round2 (rawKeystrokeAccuracy c2State) = 85
    rw [hraw]; norm_num [round2, jsRound]
  · norm_num [elapsedOf, c2State]
  · show jsRound (elapsedOf c2State 700) = 700
    norm_num [elapsedOf, c2State, jsRound]
  · simp [qualifiesForLeaderboard, hnot]

/-- C2 as amended: the flag is true iff the UNROUNDED keystroke accuracy
`correctKeystrokes / typedKeystrokes * 100` (0 when nothing was typed) is at
least 85 and either the unrounded elapsed seconds are at least 600 or at
least 400 words (committed plus implicit final commit) were typed. -/
theorem c2_qualification_amended (s : SessionState) (now : ℚ) :
    qualifiesForLeaderboard s now = true ↔
      (85 ≤ rawKeystrokeAccuracy s ∧
        (600 ≤ elapsedOf s now ∨ 400 ≤ (finalTypedWords s).length)) := by
  simp [qualifiesForLeaderboard]

/-! ### C4 — the scoring denominator -/

/-- A session that starts at time 0 and completes half a second later with
one correctly typed word. -/
def c4State : SessionState :=
  { isActive := true
    isFinished := false
    timeLeft := 59
    userInput := ['a']
    currentWordIndex := 0
    wrongWords := ∅
    startTime := some 0
    totalKeystrokes := 1
    typedKeystrokes := 1
    correctKeystrokes := 1
    words := [['a']]
    typedWordsArray := [['a']]
    currentTypingWord := []
    timeLimit := 60
    backspaceMode := BackspaceMode.full
    results := none }

/-- C4 counterexample: completing `c4State` at `now = 1/2` uses the raw
denominator 1/2 (less than 1, not clamped), giving `wpm = 120`; the claim's
clamped denominator of 1 would give 60. -/
theorem c4_counterexample :
    c4State.startTime = some 0 ∧
    elapsedOf c4State (1 / 2) = 1 / 2 ∧
    (1 / 2 : ℚ) < 1 ∧
    (computeResults c4State (1 / 2)).wpm = 120 ∧
    jsRound ((correctWordsCount (finalTypedWords c4State) c4State.words : ℚ) / (1 / 60)) = 60 := by
  have hc : correctWordsCount (finalTypedWords c4State) c4State.words = 1 := by decide
  refine ⟨rfl, ?_, ?_, ?_, ?_⟩
  · norm_num [elapsedOf, c4State]
  · norm_num
  · show jsRound ((correctWordsCount (finalTypedWords c4State) c4State.words : ℚ) /
      (elapsedOf c4State (1 / 2) / 60)) = 120
    rw [hc]
    norm_num [elapsedOf, c4State, jsRound]
  · rw [hc]
    norm_num [jsRound]

/-- C4 as amended: the scoring denominator is exactly
`now - startTimestamp` (fractional and unclamped, so it can be less than 1
or even 0) when a start timestamp exists, and the configured time limit
(replaced by 60 when that limit is 0) when no keystroke ever happened; both
WPM fields divide by this value. -/
theorem c4_elapsed_amended (s : SessionState) (now : ℚ) :
    (s.startTime = none →
      elapsedOf s now = (if s.timeLimit = 0 then (60 : ℚ) else (s.timeLimit : ℚ))) ∧
    (∀ t : ℚ, s.startTime = some t → elapsedOf s now = now - t) ∧
    (computeResults s now).wpm =
      jsRound ((correctWordsCount (finalTypedWords s) s.words : ℚ) / (elapsedOf s now / 60)) ∧
    (computeResults s now).grossWpm =
      jsRound (((finalTypedWords s).length : ℚ) / (elapsedOf s now / 60)) := by
  refine ⟨fun h => by simp [elapsedOf, h], fun t ht => by simp [elapsedOf, ht], rfl, rfl⟩

/-- Witness for C4 as amended, at `c4State` completed at `now = 1/2`. -/
theorem c4_elapsed_amended_witness :
    elapsedOf c4State (1 / 2) = 1 / 2 - 0 :=
  (c4_elapsed_amended c4State (1 / 2)).2.1 0 rfl

/-! ### C10 — totalKeystrokes vs typedKeystrokes -/

/-- C10: over any event sequence, the `totalKeystrokes` field stays the
character length of the full reference text (`content.length`, which equals
the length of `words.join(' ')`), fixed when the test is selected; the
accepted keydowns are counted in the separate `typedKeystrokes` field; and
the reported keystroke accuracy divides `correctKeystrokes` by
`typedKeystrokes` (0-guarded), never by `totalKeystrokes`. -/
theorem c10_keystroke_counters (content : Str) (tl : ℕ) (mode : BackspaceMode)
    (es : List Event) (now : ℚ) :
    (run (initState content tl mode) es).totalKeystrokes = content.length ∧
    (run (initState content tl mode) es).totalKeystrokes =
      (joinSpace (run (initState content tl mode) es).words).length ∧
    (computeResults (run (initState content tl mode) es) now).totalKeystrokes =
      (run (initState content tl mode) es).totalKeystrokes ∧
    (computeResults (run (initState content tl mode) es) now).typedKeystrokes =
      (run (initState content tl mode) es).typedKeystrokes ∧
    (computeResults (run (initState content tl mode) es) now).keystrokeAccuracy =
      round2 (if 0 < (run (initState content tl mode) es).typedKeystrokes
        then ((run (initState content tl mode) es).correctKeystrokes : ℚ) /
          ((run (initState content tl mode) es).typedKeystrokes : ℚ) * 100
        else 0) := by
  have hc := run_config (initState content tl mode) es
  have hw : (run (initState content tl mode) es).words = splitOnSpace content := by
    rw [hc.1]; rfl
  have ht : (run (initState content tl mode) es).totalKeystrokes = content.length := by
    rw [hc.2.2.2]; rfl
  refine ⟨ht, ?_, rfl, rfl, rfl⟩
  rw [ht, hw, joinSpace_splitOnSpace]

/-! ### C6 — Finished is terminal -/

theorem handleInputChange_finishedInactive (value : Str) (now : ℚ) (s : SessionState)
    (hs : s.isFinished = false) :
    (handleInputChange value now s).isFinished = true →
      (handleInputChange value now s).isActive = false := by
  unfold handleInputChange completeWithin applyInput
  split_ifs <;> simp_all

theorem handleTestComplete_finishedInactive (now : ℚ) (s : SessionState)
    (h : s.isFinished = true → s.isActive = false) :
    (handleTestComplete now s).isFinished = true →
      (handleTestComplete now s).isActive = false := by
  unfold handleTestComplete completeWithin
  split_ifs with hf
  · exact fun _ => h hf
  · simp

theorem tickEvent_finishedInactive (now : ℚ) (s : SessionState)
    (h : s.isFinished = true → s.isActive = false) :
    (tickEvent now s).isFinished = true → (tickEvent now s).isActive = false := by
  unfold tickEvent
  dsimp only
  split_ifs with h1 h2 h3
  · exact handleTestComplete_finishedInactive now _ h
  · exact h
  · exact handleTestComplete_finishedInactive now s h
  · exact h

theorem dispatch_finishedInactive (e : Event) (s : SessionState)
    (h : s.isFinished = true → s.isActive = false) :
    (dispatch e s).isFinished = true → (dispatch e s).isActive = false := by
  cases e with
  | keyDown ctrl k now =>
    simp only [dispatch]
    split_ifs with hf
    · exact h
    · have hkf := (handleKeyDown_fields ctrl k now s).2.2.2.2.1
      rw [hkf]
      intro hcontra
      exact absurd hcontra hf
  | inputChange value now =>
    simp only [dispatch]
    split_ifs with hf
    · exact h
    · exact handleInputChange_finishedInactive value now s (by simpa using hf)
  | tick now => exact tickEvent_finishedInactive now s h
  | submit now => exact handleTestComplete_finishedInactive now s h

theorem run_finishedInactive (s : SessionState) (es : List Event)
    (h : s.isFinished = true → s.isActive = false) :
    (run s es).isFinished = true → (run s es).isActive = false := by
  induction es generalizing s with
  | nil => exact h
  | cons e es ih => exact ih (dispatch e s) (dispatch_finishedInactive e s h)

theorem dispatch_of_finished (e : Event) (s : SessionState)
    (hf : s.isFinished = true) (ha : s.isActive = false) :
    dispatch e s = s := by
  cases e with
  | keyDown ctrl k now => simp [dispatch, hf]
  | inputChange value now => simp [dispatch, hf]
  | tick now =>
    simp only [dispatch]
    unfold tickEvent handleTestComplete completeWithin
    dsimp only
    split_ifs <;> simp_all
  | submit now =>
    simp only [dispatch]
    unfold handleTestComplete completeWithin
    split_ifs
    simp_all

/-- C6: once a session reached from a fresh test state is finished, every
further event — keydown and buffer change (the textarea carries
`disabled={isFinished}`), tick, or a repeated submit/completion call — is
silently discarded: the state, including the frozen results record, is
unchanged, and since every handler is a total function no event ever raises
an error. -/
theorem c6_finished_terminal (content : Str) (tl : ℕ) (mode : BackspaceMode)
    (es : List Event) (e : Event)
    (hf : (run (initState content tl mode) es).isFinished = true) :
    dispatch e (run (initState content tl mode) es) = run (initState content tl mode) es := by
  have ha := run_finishedInactive (initState content tl mode) es
    (by intro h; simp [initState] at h) hf
  exact dispatch_of_finished e _ hf ha

/-- An event list that finishes a one-word test by typing its word exactly. -/
def c6DemoEvents : List Event :=
  [Event.keyDown false (Key.char 'a') 0, Event.inputChange ['a'] 0]

/-- Witness for C6: the finished one-word session ignores a later tick. -/
theorem c6_finished_terminal_witness :
    dispatch (Event.tick 9) (run (initState ['a'] 60 BackspaceMode.full) c6DemoEvents) =
      run (initState ['a'] 60 BackspaceMode.full) c6DemoEvents :=
  c6_finished_terminal ['a'] 60 BackspaceMode.full c6DemoEvents (Event.tick 9) (by decide)

/-! ### C3 — the wrong-word set -/

/-- Typing a wrong first character into a fresh "the" test. -/
def c3EventsA : List Event :=
  [Event.keyDown false (Key.char 'x') 0, Event.inputChange ['x'] 0]

/-- Then deleting it again (full backspace mode). -/
def c3EventsB : List Event :=
  c3EventsA ++ [Event.keyDown false Key.backspace 1, Event.inputChange [] 1]

/-- C3 counterexample: after typing 'x' against reference "the" the set is
{0}; after deleting the 'x' the buffer-change recomputation rebuilds the set
from the committed words only, and it shrinks back to the empty set. -/
theorem c3_counterexample :
    (run (initState ['t', 'h', 'e'] 60 BackspaceMode.full) c3EventsA).wrongWords = {0} ∧
    (run (initState ['t', 'h', 'e'] 60 BackspaceMode.full) c3EventsB).wrongWords = ∅ := by
  decide

theorem handleKeyDown_typed_append (ctrl : Bool) (k : Key) (now : ℚ) (s : SessionState) :
    ∃ t, (handleKeyDown ctrl k now s).typedWordsArray = s.typedWordsArray ++ t := by
  obtain ⟨-, -, -, -, -, -, -, -, ta1, -, -, -, -, -⟩ := kdStart_parts ctrl k now s
  obtain ⟨-, -, -, -, -, -, -, ta2, -, -, -, -, -, -, -⟩ :=
    kdCount_parts s (kdStart ctrl k now s)
  obtain ⟨-, -, -, -, -, -, -, -, ta3, -, -⟩ :=
    kdSpace_parts s (kdCount s (kdStart ctrl k now s))
  unfold handleKeyDown
  split_ifs
  · exact ⟨[], by rw [ta1, List.append_nil]⟩
  · exact ⟨[], by rw [ta1, List.append_nil]⟩
  · exact ⟨[s.currentTypingWord], by rw [ta3, ta2, ta1]⟩
  · exact ⟨[], by rw [ta2, ta1, List.append_nil]⟩

theorem handleKeyDown_wrong_superset (ctrl : Bool) (k : Key) (now : ℚ) (s : SessionState) :
    s.wrongWords ⊆ (handleKeyDown ctrl k now s).wrongWords := by
  obtain ⟨-, -, -, -, -, -, -, -, -, ww1, -, -, -, -⟩ := kdStart_parts ctrl k now s
  obtain ⟨-, -, -, -, -, -, -, -, ww2, -, -, -, -, -, -⟩ :=
    kdCount_parts s (kdStart ctrl k now s)
  obtain ⟨-, -, -, -, -, -, -, -, -, ww3, -⟩ :=
    kdSpace_parts s (kdCount s (kdStart ctrl k now s))
  unfold handleKeyDown
  split_ifs
  · rw [ww1]
  · rw [ww1]
  · rw [ww2, ww1] at ww3
    exact ww3
  · rw [ww2, ww1]

theorem handleInputChange_wrong_cases (value : Str) (now : ℚ) (s : SessionState) :
    (handleInputChange value now s).wrongWords = s.wrongWords ∨
      committedWrongSet s.typedWordsArray s.words ⊆ (handleInputChange value now s).wrongWords := by
  unfold handleInputChange completeWithin applyInput
  split_ifs <;>
    first
      | exact Or.inl rfl
      | exact Or.inr (Finset.Subset.refl _)
      | exact Or.inr (Finset.subset_insert _ _)

theorem dispatch_keeps_committed_wrong (e : Event) (s : SessionState) (i : ℕ)
    (h1 : i < s.typedWordsArray.length)
    (h2 : s.typedWordsArray.getD i [] ≠ s.words.getD i [])
    (h3 : i ∈ s.wrongWords) :
    i < (dispatch e s).typedWordsArray.length ∧
    (dispatch e s).typedWordsArray.getD i [] ≠ (dispatch e s).words.getD i [] ∧
    i ∈ (dispatch e s).wrongWords := by
  cases e with
  | keyDown ctrl k now =>
    simp only [dispatch]
    split_ifs
    · exact ⟨h1, h2, h3⟩
    · obtain ⟨t, ht⟩ := handleKeyDown_typed_append ctrl k now s
      have hwords := (handleKeyDown_fields ctrl k now s).1
      have hlen : i < (handleKeyDown ctrl k now s).typedWordsArray.length := by
        rw [ht, List.length_append]
        omega
      have hget : (handleKeyDown ctrl k now s).typedWordsArray.getD i [] =
          s.typedWordsArray.getD i [] := by
        rw [ht]
        exact List.getD_append _ _ _ _ h1
      refine ⟨hlen, ?_, handleKeyDown_wrong_superset ctrl k now s h3⟩
      rw [hget, hwords]
      exact h2
  | inputChange value now =>
    simp only [dispatch]
    split_ifs
    · exact ⟨h1, h2, h3⟩
    · have hf := handleInputChange_fields value now s
      have htyped := hf.2.2.2.2.2.1
      have hwords := hf.1
      refine ⟨by rw [htyped]; exact h1, by rw [htyped, hwords]; exact h2, ?_⟩
      rcases handleInputChange_wrong_cases value now s with hcase | hcase
      · rw [hcase]; exact h3
      · exact hcase (by
          unfold committedWrongSet
          rw [Finset.mem_filter, Finset.mem_range]
          exact ⟨h1, h2⟩)
  | tick now =>
    have hf := tickEvent_fields now s
    simp only [dispatch]
    refine ⟨by rw [hf.2.2.2.2.2.2.2.2.1]; exact h1, ?_, by rw [hf.2.2.1]; exact h3⟩
    rw [hf.2.2.2.2.2.2.2.2.1, hf.2.2.2.2.2.2.2.1]
    exact h2
  | submit now =>
    have hf := handleTestComplete_fields now s
    simp only [dispatch]
    refine ⟨by rw [hf.2.2.2.2.2.2.2.2.2.1]; exact h1, ?_, by rw [hf.2.2.2.1]; exact h3⟩
    rw [hf.2.2.2.2.2.2.2.2.2.1, hf.2.2.2.2.2.2.2.2.1]
    exact h2

theorem run_keeps_committed_wrong (s : SessionState) (es : List Event) (i : ℕ)
    (h1 : i < s.typedWordsArray.length)
    (h2 : s.typedWordsArray.getD i [] ≠ s.words.getD i [])
    (h3 : i ∈ s.wrongWords) :
    i < (run s es).typedWordsArray.length ∧
    (run s es).typedWordsArray.getD i [] ≠ (run s es).words.getD i [] ∧
    i ∈ (run s es).wrongWords := by
  induction es generalizing s with
  | nil => exact ⟨h1, h2, h3⟩
  | cons e es ih =>
    obtain ⟨g1, g2, g3⟩ := dispatch_keeps_committed_wrong e s i h1 h2 h3
    exact ih (dispatch e s) g1 g2 g3

/-- C3 as amended: `wrongWordIndices` is not monotone — every accepted
buffer change rebuilds it, dropping the in-progress word's index when the
buffer no longer mismatches (see the counterexample) — but the index of a
committed word that differs from its reference word, once present, is still
present after every later sequence of events. -/
theorem c3_wrong_set_amended (s : SessionState) (es : List Event) (i : ℕ)
    (h1 : i < s.typedWordsArray.length)
    (h2 : s.typedWordsArray.getD i [] ≠ s.words.getD i [])
    (h3 : i ∈ s.wrongWords) :
    i ∈ (run s es).wrongWords :=
  (run_keeps_committed_wrong s es i h1 h2 h3).2.2

/-- A session that committed the wrong word "x" against reference "the". -/
def c3WitnessState : SessionState :=
  { isActive := true
    isFinished := false
    timeLeft := 59
    userInput := ['x']
    currentWordIndex := 0
    wrongWords := {0}
    startTime := some 0
    totalKeystrokes := 3
    typedKeystrokes := 2
    correctKeystrokes := 0
    words := [['t', 'h', 'e']]
    typedWordsArray := [['x']]
    currentTypingWord := ['x']
    timeLimit := 60
    backspaceMode := BackspaceMode.full
    results := none }

/-- Witness for C3 as amended: the committed wrong index 0 survives a later
buffer change. -/
theorem c3_wrong_set_amended_witness :
    0 ∈ (run c3WitnessState [Event.inputChange ['t'] 1]).wrongWords :=
  c3_wrong_set_amended c3WitnessState [Event.inputChange ['t'] 1] 0
    (by decide) (by decide) (by decide)

/-! ### C5 — word-commit invariant -/

theorem kdSpace_index (snap s2 : SessionState) :
    (kdSpace snap s2).currentWordIndex =
      (if snap.currentWordIndex < snap.words.length - 1
       then snap.currentWordIndex + 1 else s2.currentWordIndex) := by
  unfold kdSpace
  dsimp only
  split_ifs <;> rfl

theorem dispatch_commit_inv (e : Event) (s : SessionState)
    (h1 : s.currentWordIndex < s.words.length)
    (h2 : s.typedWordsArray.length = s.currentWordIndex ∨
      (s.currentWordIndex + 1 = s.words.length ∧
        s.currentWordIndex ≤ s.typedWordsArray.length)) :
    (dispatch e s).currentWordIndex < (dispatch e s).words.length ∧
    ((dispatch e s).typedWordsArray.length = (dispatch e s).currentWordIndex ∨
      ((dispatch e s).currentWordIndex + 1 = (dispatch e s).words.length ∧
        (dispatch e s).currentWordIndex ≤ (dispatch e s).typedWordsArray.length)) := by
  cases e with
  | keyDown ctrl k now =>
    simp only [dispatch]
    split_ifs with hfin
    · exact ⟨h1, h2⟩
    · obtain ⟨w1, -, -, -, -, -, -, -, ta1, -, ci1, -, -, -⟩ := kdStart_parts ctrl k now s
      obtain ⟨w2, -, -, -, -, -, -, ta2, -, ci2, -, -, -, -, -⟩ :=
        kdCount_parts s (kdStart ctrl k now s)
      obtain ⟨w3, -, -, -, -, -, -, -, ta3, -, -⟩ :=
        kdSpace_parts s (kdCount s (kdStart ctrl k now s))
      have ci3 := kdSpace_index s (kdCount s (kdStart ctrl k now s))
      unfold handleKeyDown
      split_ifs with hb hf hsp
      · rw [w1, ta1, ci1]; exact ⟨h1, h2⟩
      · rw [w1, ta1, ci1]; exact ⟨h1, h2⟩
      · rw [w3, w2, w1, ta3, ta2, ta1, ci3, ci2, ci1, List.length_append]
        by_cases hadv : s.currentWordIndex < s.words.length - 1
        · rw [if_pos hadv]
          refine ⟨by omega, ?_⟩
          simp only [List.length_singleton]
          omega
        · rw [if_neg hadv]
          refine ⟨h1, ?_⟩
          simp only [List.length_singleton]
          omega
      · rw [w2, w1, ta2, ta1, ci2, ci1]; exact ⟨h1, h2⟩
  | inputChange value now =>
    simp only [dispatch]
    split_ifs with hfin
    · exact ⟨h1, h2⟩
    · have hf := handleInputChange_fields value now s
      rw [hf.1, hf.2.2.2.2.2.1, hf.2.2.2.2.2.2.1]
      exact ⟨h1, h2⟩
  | tick now =>
    have hf := tickEvent_fields now s
    simp only [dispatch]
    rw [hf.2.2.2.2.2.2.2.1, hf.2.2.2.2.2.2.2.2.1, hf.2.1]
    exact ⟨h1, h2⟩
  | submit now =>
    have hf := handleTestComplete_fields now s
    simp only [dispatch]
    rw [hf.2.2.2.2.2.2.2.2.1, hf.2.2.2.2.2.2.2.2.2.1, hf.2.2.1]
    exact ⟨h1, h2⟩

theorem run_commit_inv (s : SessionState) (es : List Event)
    (h1 : s.currentWordIndex < s.words.length)
    (h2 : s.typedWordsArray.length = s.currentWordIndex ∨
      (s.currentWordIndex + 1 = s.words.length ∧
        s.currentWordIndex ≤ s.typedWordsArray.length)) :
    (run s es).currentWordIndex < (run s es).words.length ∧
    ((run s es).typedWordsArray.length = (run s es).currentWordIndex ∨
      ((run s es).currentWordIndex + 1 = (run s es).words.length ∧
        (run s es).currentWordIndex ≤ (run s es).typedWordsArray.length)) := by
  induction es generalizing s with
  | nil => exact ⟨h1, h2⟩
  | cons e es ih =>
    obtain ⟨g1, g2⟩ := dispatch_commit_inv e s h1 h2
    exact ih (dispatch e s) g1 g2

/-- Start a one-word test "ab", type a wrong character, then press space at
the final word index. -/
def c5Events : List Event :=
  [Event.keyDown false (Key.char 'x') 0, Event.inputChange ['x'] 0,
   Event.keyDown false Key.space 1]

/-- C5 counterexample: right after the space processed at the final word
index the session is still Running, but one word has been committed while
`currentWordIndex` stayed 0, so `len(typedWords) = 1 ≠ 0 = currentWordIndex`. -/
theorem c5_counterexample :
    (run (initState ['a', 'b'] 60 BackspaceMode.full) c5Events).isActive = true ∧
    (run (initState ['a', 'b'] 60 BackspaceMode.full) c5Events).isFinished = false ∧
    (run (initState ['a', 'b'] 60 BackspaceMode.full) c5Events).currentWordIndex = 0 ∧
    (run (initState ['a', 'b'] 60 BackspaceMode.full) c5Events).typedWordsArray.length = 1 := by
  decide

/-- C5 as amended: at every observation point (Running or not),
`len(typedWords) = currentWordIndex` — except that once the final word index
is reached, each space processed there appends a committed word without
advancing the index, leaving `currentWordIndex + 1 = len(referenceWords)`
and `currentWordIndex ≤ len(typedWords)`. -/
theorem c5_word_commit_amended (content : Str) (tl : ℕ) (mode : BackspaceMode)
    (es : List Event) :
    (run (initState content tl mode) es).typedWordsArray.length =
        (run (initState content tl mode) es).currentWordIndex ∨
      ((run (initState content tl mode) es).currentWordIndex + 1 =
          (run (initState content tl mode) es).words.length ∧
        (run (initState content tl mode) es).currentWordIndex ≤
          (run (initState content tl mode) es).typedWordsArray.length) :=
  (run_commit_inv (initState content tl mode) es (splitOnSpace_length_pos content)
    (Or.inl rfl)).2

/-! ### C7 — the space commit -/

theorem kdSpace_correct_eq (snap s2 : SessionState) :
    (kdSpace snap s2).correctKeystrokes =
      (if snap.words.get? snap.currentWordIndex = some snap.currentTypingWord
       then s2.correctKeystrokes + snap.currentTypingWord.length + 1
       else s2.correctKeystrokes) := by
  unfold kdSpace
  dsimp only
  split_ifs <;> rfl

theorem kdSpace_wrong_eq (snap s2 : SessionState) :
    (kdSpace snap s2).wrongWords =
      (if snap.words.get? snap.currentWordIndex = some snap.currentTypingWord
       then s2.wrongWords
       else insert snap.currentWordIndex s2.wrongWords) := by
  unfold kdSpace
  dsimp only
  split_ifs <;> rfl

theorem kdSpace_buffer_eq (snap s2 : SessionState) :
    (kdSpace snap s2).currentTypingWord =
      (if snap.currentWordIndex < snap.words.length - 1
       then [] else s2.currentTypingWord) := by
  unfold kdSpace
  dsimp only
  split_ifs <;> rfl

theorem kdSpace_input_eq (snap s2 : SessionState) :
    (kdSpace snap s2).userInput =
      (if snap.currentWordIndex < snap.words.length - 1
       then s2.userInput ++ [spaceChar] else s2.userInput) := by
  unfold kdSpace
  dsimp only
  split_ifs <;> rfl

/-- C7: a space keydown processed while Running never inserts the space into
the typing buffer; the buffer is compared for exact equality with the
current reference word `w`; on equality `correctKeystrokes` grows by
`len(buffer) + 1`, on inequality the current index joins `wrongWords`; the
buffer is appended to `typedWords` either way; and the index advances (with
the buffer cleared and a space appended to the input value) unless it is
the last index, where the word is still committed but nothing advances. -/
theorem c7_space_commit (s : SessionState) (now : ℚ) (w : Str)
    (hA : s.isActive = true) (hF : s.isFinished = false)
    (hw : s.words.get? s.currentWordIndex = some w) :
    (dispatch (Event.keyDown false Key.space now) s).typedWordsArray =
      s.typedWordsArray ++ [s.currentTypingWord] ∧
    (s.currentTypingWord = w →
      (dispatch (Event.keyDown false Key.space now) s).correctKeystrokes =
        s.correctKeystrokes + s.currentTypingWord.length + 1 ∧
      (dispatch (Event.keyDown false Key.space now) s).wrongWords = s.wrongWords) ∧
    (s.currentTypingWord ≠ w →
      (dispatch (Event.keyDown false Key.space now) s).wrongWords =
        insert s.currentWordIndex s.wrongWords ∧
      (dispatch (Event.keyDown false Key.space now) s).correctKeystrokes =
        s.correctKeystrokes) ∧
    (dispatch (Event.keyDown false Key.space now) s).currentTypingWord =
      (if s.currentWordIndex < s.words.length - 1 then [] else s.currentTypingWord) ∧
    (dispatch (Event.keyDown false Key.space now) s).currentWordIndex =
      (if s.currentWordIndex < s.words.length - 1
       then s.currentWordIndex + 1 else s.currentWordIndex) ∧
    (dispatch (Event.keyDown false Key.space now) s).userInput =
      (if s.currentWordIndex < s.words.length - 1
       then s.userInput ++ [spaceChar] else s.userInput) := by
  have hstep : dispatch (Event.keyDown false Key.space now) s =
      kdSpace s (kdCount s (kdStart false Key.space now s)) := by
    simp [dispatch, hF, handleKeyDown, isBlockedCombo, hA]
  have h1 : kdStart false Key.space now s = s := by
    unfold kdStart
    rw [if_neg]
    simp [hA]
  rw [hstep, h1]
  refine ⟨(kdSpace_parts s (kdCount s s)).2.2.2.2.2.2.2.2.1.trans (by
      rw [(kdCount_parts s s).2.2.2.2.2.2.2.1]), ?_, ?_,
    (kdSpace_buffer_eq s (kdCount s s)).trans (by
      rw [(kdCount_parts s s).2.2.2.2.2.2.2.2.2.2.1]),
    (kdSpace_index s (kdCount s s)).trans (by
      rw [(kdCount_parts s s).2.2.2.2.2.2.2.2.2.1]),
    (kdSpace_input_eq s (kdCount s s)).trans (by
      rw [(kdCount_parts s s).2.2.2.2.2.2.2.2.2.2.2.2.1])⟩
  · intro hctw
    have hcond : s.words.get? s.currentWordIndex = some s.currentTypingWord := by
      rw [hctw]
      exact hw
    constructor
    · rw [kdSpace_correct_eq, if_pos hcond, (kdCount_parts s s).2.2.2.2.2.2.2.2.2.2.2.1]
    · rw [kdSpace_wrong_eq, if_pos hcond, (kdCount_parts s s).2.2.2.2.2.2.2.2.1]
  · intro hctw
    have hcond : ¬(s.words.get? s.currentWordIndex = some s.currentTypingWord) := by
      rw [hw]
      simp only [ne_eq, Option.some.injEq]
      exact fun h => hctw h.symm
    constructor
    · rw [kdSpace_wrong_eq, if_neg hcond, (kdCount_parts s s).2.2.2.2.2.2.2.2.1]
    · rw [kdSpace_correct_eq, if_neg hcond, (kdCount_parts s s).2.2.2.2.2.2.2.2.2.2.2.1]

/-- Witness for C7 at `demoState` (reference word "cd" at index 1). -/
theorem c7_space_commit_witness :
    (dispatch (Event.keyDown false Key.space 7) demoState).typedWordsArray =
      demoState.typedWordsArray ++ [demoState.currentTypingWord] :=
  (c7_space_commit demoState 7 ['c', 'd'] rfl rfl (by decide)).1

/-! ### C8 — full recompute of correctKeystrokes -/

/-- C8: after every accepted buffer change, `correctKeystrokes` equals the
sum over the committed words of `len+1` for each word equal to its reference
word, plus the number of positions below the shorter of the in-progress
word and the current reference word at which the characters agree; being a
function of the new value and the pre-event state only, the recomputation is
independent of the edit order (insert, delete or replace). -/
theorem c8_correct_keystrokes (s : SessionState) (value : Str) (now : ℚ)
    (hF : s.isFinished = false)
    (hg1 : ¬(spaceChar ∈ value ∧ spaceChar ∉ s.userInput))
    (hg2 : ¬(value.length < s.userInput.length ∧
      (s.backspaceMode = BackspaceMode.disabled ∨
        (s.backspaceMode = BackspaceMode.word ∧
          value.length < lastSpacePlusOne s.userInput)))) :
    (dispatch (Event.inputChange value now) s).correctKeystrokes =
      (∑ i ∈ Finset.range s.typedWordsArray.length,
        (if s.typedWordsArray.getD i [] = s.words.getD i []
         then (s.typedWordsArray.getD i []).length + 1 else 0)) +
      ((List.range (min (currentWordOf value).length
          ((s.words.getD s.currentWordIndex []).length))).filter
        (fun j => decide ((currentWordOf value).get? j =
          (s.words.getD s.currentWordIndex []).get? j))).length := by
  have hstep : dispatch (Event.inputChange value now) s = handleInputChange value now s := by
    simp [dispatch, hF]
  rw [hstep, ← posMatchCount_eq_filter_length]
  unfold handleInputChange
  rw [if_neg hg1, if_neg hg2]
  split_ifs with hc
  · rw [(completeWithin_fields s (applyInput value s) now).2.2.2.2.2.2.2.1]
    rfl
  · rfl

/-- Witness for C8: a buffer change on the one-word session
`c3WitnessState`. -/
theorem c8_correct_keystrokes_witness :
    (dispatch (Event.inputChange ['t', 'h'] 2) c3WitnessState).correctKeystrokes =
      (∑ i ∈ Finset.range c3WitnessState.typedWordsArray.length,
        (if c3WitnessState.typedWordsArray.getD i [] = c3WitnessState.words.getD i []
         then (c3WitnessState.typedWordsArray.getD i []).length + 1 else 0)) +
      ((List.range (min (currentWordOf ['t', 'h']).length
          ((c3WitnessState.words.getD c3WitnessState.currentWordIndex []).length))).filter
        (fun j => decide ((currentWordOf ['t', 'h']).get? j =
          (c3WitnessState.words.getD c3WitnessState.currentWordIndex []).get? j))).length :=
  c8_correct_keystrokes c3WitnessState ['t', 'h'] 2 rfl (by decide) (by decide)

/-! ### C9 — deletion gating by backspace mode -/

theorem dispatch_disabled_mono (e : Event) (s : SessionState)
    (hmode : s.backspaceMode = BackspaceMode.disabled) :
    s.userInput.length ≤ (dispatch e s).userInput.length := by
  cases e with
  | keyDown ctrl k now =>
    simp only [dispatch]
    split_ifs
    · exact le_refl _
    · obtain ⟨-, -, -, -, -, -, -, -, -, -, -, -, -, ui1⟩ := kdStart_parts ctrl k now s
      obtain ⟨-, -, -, -, -, -, -, -, -, -, -, -, ui2, -, -⟩ :=
        kdCount_parts s (kdStart ctrl k now s)
      unfold handleKeyDown
      split_ifs
      · rw [ui1]
      · rw [ui1]
      · rw [kdSpace_input_eq, ui2, ui1]
        split_ifs
        · rw [List.length_append]
          omega
        · exact le_refl _
      · rw [ui2, ui1]
  | inputChange value now =>
    simp only [dispatch]
    split_ifs
    · exact le_refl _
    · unfold handleInputChange
      split_ifs with g1 g2 g3
      · exact le_refl _
      · exact le_refl _
      · rw [(completeWithin_fields s (applyInput value s) now).2.1]
        show s.userInput.length ≤ value.length
        by_contra hlt
        exact g2 ⟨by omega, Or.inl hmode⟩
      · show s.userInput.length ≤ value.length
        by_contra hlt
        exact g2 ⟨by omega, Or.inl hmode⟩
  | tick now =>
    simp only [dispatch]
    rw [(tickEvent_fields now s).1]
  | submit now =>
    simp only [dispatch]
    rw [(handleTestComplete_fields now s).2.1]

/-- A running session in full backspace mode with four characters typed and
no space yet. -/
def c9State : SessionState :=
  { isActive := true
    isFinished := false
    timeLeft := 50
    userInput := ['a', 'b', 'c', 'd']
    currentWordIndex := 0
    wrongWords := ∅
    startTime := some 0
    totalKeystrokes := 4
    typedKeystrokes := 4
    correctKeystrokes := 0
    words := [['a', 'b', 'c', 'd']]
    typedWordsArray := []
    currentTypingWord := ['a', 'b', 'c', 'd']
    timeLimit := 60
    backspaceMode := BackspaceMode.full
    results := none }

/-- C9 counterexample: in full mode a shortening change ("abcd" to "a b") is
rejected anyway, because the new value introduces a space while the current
input has none (the guard on line 399 fires before the mode check), so "in
Full mode the deletion is always applied" is false as stated. -/
theorem c9_counterexample :
    c9State.backspaceMode = BackspaceMode.full ∧
    (['a', spaceChar, 'b'] : Str).length < c9State.userInput.length ∧
    dispatch (Event.inputChange ['a', spaceChar, 'b'] 1) c9State = c9State ∧
    (dispatch (Event.inputChange ['a', spaceChar, 'b'] 1) c9State).userInput ≠
      ['a', spaceChar, 'b'] := by
  refine ⟨rfl, by decide, by decide, by decide⟩

/-- C9 as amended: for a buffer change that shortens the input and does not
introduce a space absent from it (the space guard rejects any value
regardless of mode): full mode always applies it; disabled mode always
rejects it, and consequently the input length is non-decreasing over any
sequence of events; word-level mode rejects it exactly when the new length
reaches back past the current word's start (`lastIndexOf(' ') + 1`),
applying any deletion down to an empty current word. -/
theorem c9_backspace_policy_amended :
    (∀ (s : SessionState) (value : Str) (now : ℚ),
      s.isFinished = false →
      ¬(spaceChar ∈ value ∧ spaceChar ∉ s.userInput) →
      value.length < s.userInput.length →
      ((s.backspaceMode = BackspaceMode.full →
          (dispatch (Event.inputChange value now) s).userInput = value) ∧
       (s.backspaceMode = BackspaceMode.disabled →
          dispatch (Event.inputChange value now) s = s) ∧
       (s.backspaceMode = BackspaceMode.word →
          ((value.length < lastSpacePlusOne s.userInput →
              dispatch (Event.inputChange value now) s = s) ∧
           (lastSpacePlusOne s.userInput ≤ value.length →
              (dispatch (Event.inputChange value now) s).userInput = value))))) ∧
    (∀ (s : SessionState) (es : List Event),
      s.backspaceMode = BackspaceMode.disabled →
      s.userInput.length ≤ (run s es).userInput.length) := by
  constructor
  · intro s value now hF hg1 hlen
    have hstep : dispatch (Event.inputChange value now) s = handleInputChange value now s := by
      simp [dispatch, hF]
    refine ⟨?_, ?_, ?_⟩
    · intro hm
      rw [hstep]
      unfold handleInputChange
      rw [if_neg hg1, if_neg (by simp [hm])]
      split_ifs with hc
      · rw [(completeWithin_fields s (applyInput value s) now).2.1]
        rfl
      · rfl
    · intro hm
      rw [hstep]
      unfold handleInputChange
      rw [if_neg hg1, if_pos ⟨hlen, Or.inl hm⟩]
    · intro hm
      refine ⟨fun hback => ?_, fun hok => ?_⟩
      · rw [hstep]
        unfold handleInputChange
        rw [if_neg hg1, if_pos ⟨hlen, Or.inr ⟨hm, hback⟩⟩]
      · rw [hstep]
        unfold handleInputChange
        rw [if_neg hg1, if_neg (by
          rintro ⟨-, hd | ⟨-, hb⟩⟩
          · rw [hm] at hd
            exact absurd hd (by decide)
          · omega)]
        split_ifs with hc
        · rw [(completeWithin_fields s (applyInput value s) now).2.1]
          rfl
        · rfl
  · intro s es
    induction es generalizing s with
    | nil => exact fun _ => le_refl _
    | cons e es ih =>
      intro hmode
      have hone := dispatch_disabled_mono e s hmode
      have hmode2 : (dispatch e s).backspaceMode = BackspaceMode.disabled := by
        rw [(dispatch_config e s).2.2.1]
        exact hmode
      exact le_trans hone (ih (dispatch e s) hmode2)

/-- The same four-character session in disabled backspace mode. -/
def c9DisabledState : SessionState :=
  { c9State with backspaceMode := BackspaceMode.disabled }

/-- Witness for C9 as amended: disabled mode rejects a plain deletion. -/
theorem c9_backspace_policy_amended_witness :
    dispatch (Event.inputChange ['a', 'b', 'c'] 1) c9DisabledState = c9DisabledState :=
  (c9_backspace_policy_amended.1 c9DisabledState ['a', 'b', 'c'] 1 rfl
    (by decide) (by decide)).2.1 rfl
